import Mathlib

/-!
Verification of the fm-bindings session bridge (src/session.rs, src/error.rs).

The bridge reconciles a callback-driven foreign text-generation backend with
blocking consumer calls. We embed the bridge shallowly: the foreign side's
behaviour on one call is a trace of callback events (chunk deliveries followed
by one terminal done/error event), each callback is a pure state transformer on
the shared cell, and the blocking wait is a function that returns `none` when
it would block forever. Nullable C pointers are `Option`; lock poisoning is a
boolean on the shared cell; reclaiming the boxed handle (`Box::from_raw`) is
counted explicitly so ownership claims can be stated.
-/

namespace FmBindings

deriving instance DecidableEq for Except

/-- The error taxonomy, from src/error.rs. -/
inductive Error where
  | ModelNotAvailable
  | GenerationError (msg : String)
  | InvalidInput (msg : String)
  | InternalError (msg : String)
  | PoisonError
  deriving DecidableEq, Repr

/-- Substring test on character lists: does the haystack contain the needle
as a contiguous run (Rust's `str::contains`). -/
def listContainsSub (needle : List Char) : List Char → Bool
  | [] => needle.isEmpty
  | c :: rest => needle.isPrefixOf (c :: rest) || listContainsSub needle rest

/-- Substring test on strings, modelling `String::contains` in session.rs. -/
def strContainsSub (hay needle : String) : Bool :=
  listContainsSub needle.data hay.data

/-- Classification of a raw foreign error message, from session.rs lines
121-126 and 203-208: `ModelNotAvailable` when the message contains the
substring "not available", otherwise `GenerationError` carrying the message. -/
def classifyForeignError (msg : String) : Error :=
  if strContainsSub msg "not available" then Error.ModelNotAvailable
  else Error.GenerationError msg

/-- Whether the prompt contains an embedded null byte. `CString::new` fails
exactly when some byte of the UTF-8 encoding is zero, which happens exactly
when the character U+0000 occurs. -/
def hasNulByte (s : String) : Bool :=
  s.data.any fun c => c == Char.ofNat 0

/-- Shared state of a blocking `response` call (struct ResponseState). -/
structure ResponseState where
  text : String
  finished : Bool
  error : Option String
  deriving DecidableEq, Repr

/-- `ResponseState::default()`: empty text, not finished, no error. -/
def ResponseState.default : ResponseState :=
  { text := "", finished := false, error := none }

/-- Shared state of a `stream_response` call (struct StreamState). -/
structure StreamState where
  finished : Bool
  error : Option String
  deriving DecidableEq, Repr

/-- `StreamState::default()`: not finished, no error. -/
def StreamState.default : StreamState :=
  { finished := false, error := none }

/-- A mutex-guarded cell: the value plus whether the lock is poisoned
(a panic occurred while the lock was held). `Mutex::lock` errors exactly
when `poisoned` is true. -/
structure Shared (σ : Type) where
  st : σ
  poisoned : Bool
  deriving DecidableEq, Repr

/-- `response_callback` (session.rs 272-289): if the chunk pointer or the
user_data pointer is null, return without touching anything; otherwise lock
the cell with `if let Ok(..)` — a poisoned lock is swallowed (no mutation) —
and append the chunk text to the accumulator. Never reclaims the handle. -/
def response_callback (chunk : Option String) (userDataNull : Bool)
    (sh : Shared ResponseState) : Shared ResponseState :=
  match chunk, userDataNull with
  | none, _ => sh
  | _, true => sh
  | some s, false =>
    if sh.poisoned then sh
    else { sh with st := { sh.st with text := sh.st.text ++ s } }

/-- `response_done_callback` (session.rs 291-307): if user_data is null,
return without reclaiming; otherwise reclaim the boxed handle
(`Box::from_raw`, counted in the second component), then lock with
`if let Ok(..)` — on a poisoned lock the body is skipped — and set
`finished`, notifying waiters. -/
def response_done_callback (userDataNull : Bool)
    (sh : Shared ResponseState) : Shared ResponseState × Nat :=
  if userDataNull then (sh, 0)
  else if sh.poisoned then (sh, 1)
  else ({ sh with st := { sh.st with finished := true } }, 1)

/-- `response_error_callback` (session.rs 309-335): if user_data is null,
return without reclaiming; otherwise reclaim the boxed handle, lock with
`if let Ok(..)` (poisoned lock skips the body), record the message when the
error pointer is non-null, and set `finished` in every non-poisoned case. -/
def response_error_callback (error : Option String) (userDataNull : Bool)
    (sh : Shared ResponseState) : Shared ResponseState × Nat :=
  if userDataNull then (sh, 0)
  else if sh.poisoned then (sh, 1)
  else
    match error with
    | some msg =>
      ({ sh with st := { sh.st with error := some msg, finished := true } }, 1)
    | none => ({ sh with st := { sh.st with finished := true } }, 1)

/-- `stream_chunk_callback` (session.rs 342-355): if the chunk pointer or the
user_data pointer is null, return; otherwise invoke the caller's sink with the
chunk text. The observable of the sink is its call log. No lock is taken and
the handle is never reclaimed. -/
def stream_chunk_callback (chunk : Option String) (userDataNull : Bool)
    (sinkCalls : List String) : List String :=
  match chunk, userDataNull with
  | none, _ => sinkCalls
  | _, true => sinkCalls
  | some s, false => sinkCalls ++ [s]

/-- `stream_done_callback` (session.rs 357-370): mirror of
`response_done_callback` on the streaming cell. -/
def stream_done_callback (userDataNull : Bool)
    (sh : Shared StreamState) : Shared StreamState × Nat :=
  if userDataNull then (sh, 0)
  else if sh.poisoned then (sh, 1)
  else ({ sh with st := { sh.st with finished := true } }, 1)

/-- `stream_error_callback` (session.rs 372-395): mirror of
`response_error_callback` on the streaming cell. -/
def stream_error_callback (error : Option String) (userDataNull : Bool)
    (sh : Shared StreamState) : Shared StreamState × Nat :=
  if userDataNull then (sh, 0)
  else if sh.poisoned then (sh, 1)
  else
    match error with
    | some msg =>
      ({ sh with st := { sh.st with error := some msg, finished := true } }, 1)
    | none => ({ sh with st := { sh.st with finished := true } }, 1)

/-- One callback invocation by the foreign side during a call. A `chunk` or
`err` payload of `none` models a null C string pointer. -/
inductive FMEvent where
  | chunk (text : Option String)
  | done
  | err (msg : Option String)
  deriving DecidableEq, Repr

/-- Whether an event is a terminal callback (`on_done` or `on_error`). -/
def FMEvent.isTerminal : FMEvent → Bool
  | .done => true
  | .err _ => true
  | .chunk _ => false

/-- The trace fragment of a list of delivered (non-null) chunk texts. -/
def chunkEvents (cs : List String) : List FMEvent :=
  cs.map fun c => FMEvent.chunk (some c)

/-- In-order concatenation of delivered chunk texts. -/
def concatChunks : List String → String
  | [] => ""
  | c :: cs => c ++ concatChunks cs

/-- Running state of one blocking call: the shared cell plus how many times
the boxed handle has been reclaimed so far. -/
structure RespRun where
  sh : Shared ResponseState
  reclaims : Nat
  deriving DecidableEq, Repr

/-- Effect of one foreign callback invocation on a blocking call. The bridge
passes the non-null boxed pointer as user_data, so `userDataNull` is false. -/
def respStep (r : RespRun) : FMEvent → RespRun
  | .chunk c => { r with sh := response_callback c false r.sh }
  | .done =>
    let out := response_done_callback false r.sh
    { sh := out.1, reclaims := r.reclaims + out.2 }
  | .err m =>
    let out := response_error_callback m false r.sh
    { sh := out.1, reclaims := r.reclaims + out.2 }

/-- Run the foreign side's callback trace against a fresh blocking-call cell.
`poisoned` says whether the lock gets poisoned (by a panic while held). -/
def runResponseEvents (events : List FMEvent) (poisoned : Bool) : RespRun :=
  events.foldl respStep
    { sh := { st := ResponseState.default, poisoned := poisoned }, reclaims := 0 }

/-- Running state of one streaming call: the shared cell, the log of sink
invocations, and the reclaim count. -/
structure StreamRun where
  sh : Shared StreamState
  sinkCalls : List String
  reclaims : Nat
  deriving DecidableEq, Repr

/-- Effect of one foreign callback invocation on a streaming call. -/
def streamStep (r : StreamRun) : FMEvent → StreamRun
  | .chunk c => { r with sinkCalls := stream_chunk_callback c false r.sinkCalls }
  | .done =>
    let out := stream_done_callback false r.sh
    { r with sh := out.1, reclaims := r.reclaims + out.2 }
  | .err m =>
    let out := stream_error_callback m false r.sh
    { r with sh := out.1, reclaims := r.reclaims + out.2 }

/-- Run the foreign side's callback trace against a fresh streaming cell. -/
def runStreamEvents (events : List FMEvent) (poisoned : Bool) : StreamRun :=
  events.foldl streamStep
    { sh := { st := StreamState.default, poisoned := poisoned },
      sinkCalls := [], reclaims := 0 }

/-- The wait loop of `response` (session.rs 113-118): lock, then loop on the
condition variable until `finished`. A poisoned lock surfaces `PoisonError`
(`map_err` on both `lock` and `wait`); if the cell never finishes the thread
blocks forever, modelled as `none`. -/
def respWait (sh : Shared ResponseState) : Option (Except Error ResponseState) :=
  if sh.poisoned then some (Except.error Error.PoisonError)
  else if sh.st.finished then some (Except.ok sh.st)
  else none

/-- The wait loop of `stream_response` (session.rs 195-200). -/
def streamWait (sh : Shared StreamState) : Option (Except Error StreamState) :=
  if sh.poisoned then some (Except.error Error.PoisonError)
  else if sh.st.finished then some (Except.ok sh.st)
  else none

/-- Instrumented outcome of `response`: the returned value (`none` = blocks
forever), whether the foreign entry point `fm_response` was invoked, and how
many times the boxed handle was reclaimed. -/
structure RespOutcome where
  result : Option (Except Error String)
  ffiInvoked : Bool
  reclaims : Nat

/-- The post-wait tail of `response` (session.rs 120-128): propagate a
`PoisonError` from the wait, block forever if the wait blocks, and otherwise
classify a recorded error or return the accumulated text. -/
def settleResponse (w : Option (Except Error ResponseState)) :
    Option (Except Error String) :=
  match w with
  | none => none
  | some (Except.error e) => some (Except.error e)
  | some (Except.ok st) =>
    match st.error with
    | some msg => some (Except.error (classifyForeignError msg))
    | none => some (Except.ok st.text)

/-- `LanguageModelSession::response` (session.rs 89-129), parametrised by the
foreign side's callback trace: reject an empty prompt, reject a prompt with an
embedded null byte (`CString::new` failure), otherwise hand the boxed handle
to `fm_response`, let the trace drive the callbacks, block on the wait loop,
then classify a recorded error or return the accumulated text. -/
def response (prompt : String) (poisoned : Bool) (events : List FMEvent) :
    RespOutcome :=
  if prompt.isEmpty then
    { result := some (Except.error (Error.InvalidInput "Prompt cannot be empty")),
      ffiInvoked := false, reclaims := 0 }
  else if hasNulByte prompt then
    { result := some (Except.error (Error.InvalidInput "Prompt contains null byte")),
      ffiInvoked := false, reclaims := 0 }
  else
    let run := runResponseEvents events poisoned
    { result := settleResponse (respWait run.sh), ffiInvoked := true,
      reclaims := run.reclaims }

/-- Instrumented outcome of `stream_response`: the returned value, whether
`fm_start_stream` was invoked, the log of sink invocations, and the reclaim
count. -/
structure StreamOutcome where
  result : Option (Except Error Unit)
  ffiInvoked : Bool
  sinkCalls : List String
  reclaims : Nat

/-- The post-wait tail of `stream_response` (session.rs 202-210): propagate a
`PoisonError` from the wait, block forever if the wait blocks, and otherwise
classify a recorded error or return unit. -/
def settleStream (w : Option (Except Error StreamState)) :
    Option (Except Error Unit) :=
  match w with
  | none => none
  | some (Except.error e) => some (Except.error e)
  | some (Except.ok st) =>
    match st.error with
    | some msg => some (Except.error (classifyForeignError msg))
    | none => some (Except.ok ())

/-- `LanguageModelSession::stream_response` (session.rs 165-211), parametrised
by the foreign side's callback trace: validation identical to `response`, then
hand the handle (cell plus boxed sink) to `fm_start_stream`, let the trace
drive the callbacks, block on the wait loop, classify any recorded error,
otherwise return unit. -/
def stream_response (prompt : String) (poisoned : Bool)
    (events : List FMEvent) : StreamOutcome :=
  if prompt.isEmpty then
    { result := some (Except.error (Error.InvalidInput "Prompt cannot be empty")),
      ffiInvoked := false, sinkCalls := [], reclaims := 0 }
  else if hasNulByte prompt then
    { result := some (Except.error (Error.InvalidInput "Prompt contains null byte")),
      ffiInvoked := false, sinkCalls := [], reclaims := 0 }
  else
    let run := runStreamEvents events poisoned
    { result := settleStream (streamWait run.sh), ffiInvoked := true,
      sinkCalls := run.sinkCalls, reclaims := run.reclaims }

/-- The session capability token (struct LanguageModelSession). -/
structure LanguageModelSession where
  mk ::
  deriving DecidableEq, Repr

/-- `LanguageModelSession::new` (session.rs 52-61), parametrised by the
result of the foreign availability probe `fm_check_availability`: fail fast
with `ModelNotAvailable` when the probe is false, otherwise produce a
session. -/
def LanguageModelSession.new (probeResult : Bool) :
    Except Error LanguageModelSession :=
  if !probeResult then Except.error Error.ModelNotAvailable
  else Except.ok ⟨⟩

/-!
### Helper lemmas about callback runs
-/

theorem chunkEvents_nil : chunkEvents [] = [] := rfl

theorem chunkEvents_cons (c : String) (cs : List String) :
    chunkEvents (c :: cs) = FMEvent.chunk (some c) :: chunkEvents cs := rfl

/-- No blocking-call callback changes the poisoned flag of the lock. -/
theorem respStep_poisoned (r : RespRun) (e : FMEvent) :
    (respStep r e).sh.poisoned = r.sh.poisoned := by
  cases e with
  | chunk c =>
    cases c with
    | none => rfl
    | some s =>
      cases hp : r.sh.poisoned <;> simp [respStep, response_callback, hp]
  | done =>
    cases hp : r.sh.poisoned <;> simp [respStep, response_done_callback, hp]
  | err m =>
    cases m <;> cases hp : r.sh.poisoned <;>
      simp [respStep, response_error_callback, hp]

theorem foldl_respStep_poisoned (events : List FMEvent) (r : RespRun) :
    (events.foldl respStep r).sh.poisoned = r.sh.poisoned := by
  induction events generalizing r with
  | nil => rfl
  | cons e es ih => rw [List.foldl_cons, ih, respStep_poisoned]

theorem runResponseEvents_poisoned (events : List FMEvent) (p : Bool) :
    (runResponseEvents events p).sh.poisoned = p := by
  rw [runResponseEvents, foldl_respStep_poisoned]

/-- No streaming-call callback changes the poisoned flag of the lock. -/
theorem streamStep_poisoned (r : StreamRun) (e : FMEvent) :
    (streamStep r e).sh.poisoned = r.sh.poisoned := by
  cases e with
  | chunk c => rfl
  | done =>
    cases hp : r.sh.poisoned <;> simp [streamStep, stream_done_callback, hp]
  | err m =>
    cases m <;> cases hp : r.sh.poisoned <;>
      simp [streamStep, stream_error_callback, hp]

theorem foldl_streamStep_poisoned (events : List FMEvent) (r : StreamRun) :
    (events.foldl streamStep r).sh.poisoned = r.sh.poisoned := by
  induction events generalizing r with
  | nil => rfl
  | cons e es ih => rw [List.foldl_cons, ih, streamStep_poisoned]

theorem runStreamEvents_poisoned (events : List FMEvent) (p : Bool) :
    (runStreamEvents events p).sh.poisoned = p := by
  rw [runStreamEvents, foldl_streamStep_poisoned]

/-- A terminal callback reclaims the boxed handle exactly once, whether or not
the lock is poisoned. -/
theorem respStep_reclaims_of_terminal (r : RespRun) (t : FMEvent)
    (ht : t.isTerminal = true) :
    (respStep r t).reclaims = r.reclaims + 1 := by
  cases t with
  | chunk c => simp [FMEvent.isTerminal] at ht
  | done =>
    cases hp : r.sh.poisoned <;> simp [respStep, response_done_callback, hp]
  | err m =>
    cases m <;> cases hp : r.sh.poisoned <;>
      simp [respStep, response_error_callback, hp]

/-- Non-terminal (chunk) callbacks never reclaim the boxed handle. -/
theorem foldl_respStep_reclaims (es : List FMEvent) (r : RespRun)
    (h : ∀ e ∈ es, e.isTerminal = false) :
    (es.foldl respStep r).reclaims = r.reclaims := by
  induction es generalizing r with
  | nil => rfl
  | cons e es ih =>
    have he := h e (List.mem_cons_self e es)
    rw [List.foldl_cons, ih _ fun x hx => h x (List.mem_cons_of_mem e hx)]
    cases e with
    | chunk c => rfl
    | done => simp [FMEvent.isTerminal] at he
    | err m => simp [FMEvent.isTerminal] at he

theorem streamStep_reclaims_of_terminal (r : StreamRun) (t : FMEvent)
    (ht : t.isTerminal = true) :
    (streamStep r t).reclaims = r.reclaims + 1 := by
  cases t with
  | chunk c => simp [FMEvent.isTerminal] at ht
  | done =>
    cases hp : r.sh.poisoned <;> simp [streamStep, stream_done_callback, hp]
  | err m =>
    cases m <;> cases hp : r.sh.poisoned <;>
      simp [streamStep, stream_error_callback, hp]

theorem foldl_streamStep_reclaims (es : List FMEvent) (r : StreamRun)
    (h : ∀ e ∈ es, e.isTerminal = false) :
    (es.foldl streamStep r).reclaims = r.reclaims := by
  induction es generalizing r with
  | nil => rfl
  | cons e es ih =>
    have he := h e (List.mem_cons_self e es)
    rw [List.foldl_cons, ih _ fun x hx => h x (List.mem_cons_of_mem e hx)]
    cases e with
    | chunk c => rfl
    | done => simp [FMEvent.isTerminal] at he
    | err m => simp [FMEvent.isTerminal] at he

/-- On a non-poisoned cell, a run of chunk deliveries appends their texts in
order to the accumulator and changes nothing else. -/
theorem foldl_respStep_chunkEvents (cs : List String) (r : RespRun)
    (hp : r.sh.poisoned = false) :
    (chunkEvents cs).foldl respStep r =
      { sh := { st := { text := r.sh.st.text ++ concatChunks cs,
                        finished := r.sh.st.finished,
                        error := r.sh.st.error },
                poisoned := false },
        reclaims := r.reclaims } := by
  induction cs generalizing r with
  | nil =>
    obtain ⟨⟨⟨t, f, er⟩, p⟩, n⟩ := r
    have hp' : p = false := hp
    subst hp'
    simp [chunkEvents_nil, concatChunks, String.append_empty]
  | cons c cs ih =>
    have hstep : respStep r (FMEvent.chunk (some c)) =
        { sh := { st := { text := r.sh.st.text ++ c,
                          finished := r.sh.st.finished,
                          error := r.sh.st.error },
                  poisoned := false },
          reclaims := r.reclaims } := by
      obtain ⟨⟨⟨t, f, er⟩, p⟩, n⟩ := r
      have hp' : p = false := hp
      subst hp'
      simp [respStep, response_callback]
    rw [chunkEvents_cons, List.foldl_cons, hstep, ih _ rfl]
    simp [concatChunks, String.append_assoc]

/-- A run of chunk deliveries invokes the caller's sink once per chunk, in
order, and touches neither the cell nor the reclaim count. -/
theorem foldl_streamStep_chunkEvents (cs : List String) (r : StreamRun) :
    (chunkEvents cs).foldl streamStep r =
      { sh := r.sh, sinkCalls := r.sinkCalls ++ cs, reclaims := r.reclaims } := by
  induction cs generalizing r with
  | nil =>
    obtain ⟨sh, sc, n⟩ := r
    simp [chunkEvents_nil]
  | cons c cs ih =>
    have hstep : streamStep r (FMEvent.chunk (some c)) =
        { sh := r.sh, sinkCalls := r.sinkCalls ++ [c], reclaims := r.reclaims } := rfl
    rw [chunkEvents_cons, List.foldl_cons, hstep, ih]
    simp

/-- Settled state of a blocking call whose trace is chunk deliveries followed
by `on_done`: the accumulator holds the concatenation, `finished` is set, no
error is recorded, and the handle was reclaimed once. -/
theorem runResponseEvents_chunks_done (cs : List String) :
    runResponseEvents (chunkEvents cs ++ [FMEvent.done]) false =
      { sh := { st := { text := concatChunks cs, finished := true, error := none },
                poisoned := false },
        reclaims := 1 } := by
  rw [runResponseEvents, List.foldl_append, foldl_respStep_chunkEvents _ _ rfl]
  simp [respStep, response_done_callback, ResponseState.default, String.empty_append]

/-- Settled state of a blocking call whose trace is chunk deliveries followed
by `on_error` with message pointer `m` (null when `m = none`). -/
theorem runResponseEvents_chunks_err (cs : List String) (m : Option String) :
    runResponseEvents (chunkEvents cs ++ [FMEvent.err m]) false =
      { sh := { st := { text := concatChunks cs, finished := true, error := m },
                poisoned := false },
        reclaims := 1 } := by
  rw [runResponseEvents, List.foldl_append, foldl_respStep_chunkEvents _ _ rfl]
  cases m <;>
    simp [respStep, response_error_callback, ResponseState.default, String.empty_append]

/-- Settled state of a streaming call whose trace is chunk deliveries followed
by `on_done`. -/
theorem runStreamEvents_chunks_done (cs : List String) :
    runStreamEvents (chunkEvents cs ++ [FMEvent.done]) false =
      { sh := { st := { finished := true, error := none }, poisoned := false },
        sinkCalls := cs, reclaims := 1 } := by
  rw [runStreamEvents, List.foldl_append, foldl_streamStep_chunkEvents]
  simp [streamStep, stream_done_callback, StreamState.default]

/-- Settled state of a streaming call whose trace is chunk deliveries followed
by `on_error` with message pointer `m`. -/
theorem runStreamEvents_chunks_err (cs : List String) (m : Option String) :
    runStreamEvents (chunkEvents cs ++ [FMEvent.err m]) false =
      { sh := { st := { finished := true, error := m }, poisoned := false },
        sinkCalls := cs, reclaims := 1 } := by
  rw [runStreamEvents, List.foldl_append, foldl_streamStep_chunkEvents]
  cases m <;> simp [streamStep, stream_error_callback, StreamState.default]

/-- Unfolding of `response` once validation has passed. -/
theorem response_of_valid (prompt : String) (poisoned : Bool)
    (events : List FMEvent)
    (hne : prompt.isEmpty = false) (hnul : hasNulByte prompt = false) :
    response prompt poisoned events =
      { result := settleResponse (respWait (runResponseEvents events poisoned).sh),
        ffiInvoked := true,
        reclaims := (runResponseEvents events poisoned).reclaims } := by
  simp [response, hne, hnul]

/-- Unfolding of `stream_response` once validation has passed. -/
theorem stream_response_of_valid (prompt : String) (poisoned : Bool)
    (events : List FMEvent)
    (hne : prompt.isEmpty = false) (hnul : hasNulByte prompt = false) :
    stream_response prompt poisoned events =
      { result := settleStream (streamWait (runStreamEvents events poisoned).sh),
        ffiInvoked := true,
        sinkCalls := (runStreamEvents events poisoned).sinkCalls,
        reclaims := (runStreamEvents events poisoned).reclaims } := by
  simp [stream_response, hne, hnul]

/-!
### Claim theorems
-/

/-- C1: for every call to `response` or `stream_response` whose callback trace
is any number of non-terminal (chunk) callbacks followed by one terminal
callback (`on_done`, or `on_error` with any message pointer), the Opaque
Boundary Handle passed via `Box::into_raw` is reclaimed (`Box::from_raw`)
exactly once, whichever terminal callback fires and whether or not the lock
is poisoned; a chunk callback only borrows the handle and never changes the
reclaim count. -/
theorem C1_boundary_handle_reclaimed_once
    (prompt : String) (es : List FMEvent) (t : FMEvent) (poisoned : Bool)
    (hne : prompt.isEmpty = false) (hnul : hasNulByte prompt = false)
    (hchunks : ∀ e ∈ es, e.isTerminal = false) (ht : t.isTerminal = true) :
    (response prompt poisoned (es ++ [t])).reclaims = 1 ∧
    (stream_response prompt poisoned (es ++ [t])).reclaims = 1 ∧
    (∀ c r, (respStep r (FMEvent.chunk c)).reclaims = r.reclaims) ∧
    (∀ c r, (streamStep r (FMEvent.chunk c)).reclaims = r.reclaims) := by
  refine ⟨?_, ?_, fun c r => rfl, fun c r => rfl⟩
  · rw [response_of_valid _ _ _ hne hnul]
    show (runResponseEvents (es ++ [t]) poisoned).reclaims = 1
    rw [runResponseEvents, List.foldl_append]
    simp [List.foldl, respStep_reclaims_of_terminal _ _ ht,
      foldl_respStep_reclaims es _ hchunks]
  · rw [stream_response_of_valid _ _ _ hne hnul]
    show (runStreamEvents (es ++ [t]) poisoned).reclaims = 1
    rw [runStreamEvents, List.foldl_append]
    simp [List.foldl, streamStep_reclaims_of_terminal _ _ ht,
      foldl_streamStep_reclaims es _ hchunks]

/-- C1 witness: a concrete blocking call (chunk then done) and a concrete
streaming call (chunk then error) each reclaim the handle exactly once. -/
theorem C1_witness :
    (response "hi" false ([FMEvent.chunk (some "a")] ++ [FMEvent.done])).reclaims = 1 ∧
    (stream_response "hi" false
      ([FMEvent.chunk (some "a")] ++ [FMEvent.err (some "boom")])).reclaims = 1 := by
  constructor
  · exact (C1_boundary_handle_reclaimed_once "hi" [FMEvent.chunk (some "a")]
      FMEvent.done false (by decide) (by decide) (by decide) (by decide)).1
  · exact (C1_boundary_handle_reclaimed_once "hi" [FMEvent.chunk (some "a")]
      (FMEvent.err (some "boom")) false (by decide) (by decide) (by decide)
      (by decide)).2.1

/-- C2: for every non-empty prompt without embedded null bytes, if the done
callback fires after a sequence of chunk deliveries and no error was recorded,
`response` returns `Ok` of the in-order concatenation of the delivered chunk
texts — including `Ok ""` for zero chunks. -/
theorem C2_response_concatenates_chunks
    (prompt : String) (cs : List String)
    (hne : prompt.isEmpty = false) (hnul : hasNulByte prompt = false) :
    (response prompt false (chunkEvents cs ++ [FMEvent.done])).result =
      some (Except.ok (concatChunks cs)) := by
  rw [response_of_valid _ _ _ hne hnul, runResponseEvents_chunks_done]
  rfl

/-- C2 witness: chunks "Hel", "lo", "!" then done yield `Ok "Hello!"`; zero
chunks then done yield `Ok ""`. -/
theorem C2_witness :
    (response "hi" false (chunkEvents ["Hel", "lo", "!"] ++ [FMEvent.done])).result =
      some (Except.ok "Hello!") ∧
    (response "hi" false (chunkEvents [] ++ [FMEvent.done])).result =
      some (Except.ok "") := by
  constructor
  · rw [C2_response_concatenates_chunks "hi" ["Hel", "lo", "!"] (by decide) (by decide)]
    decide
  · rw [C2_response_concatenates_chunks "hi" [] (by decide) (by decide)]
    rfl

/-- C3: when the error callback recorded a raw foreign message, `response` and
`stream_response` return `ModelNotAvailable` exactly when the message contains
the substring "not available", and `GenerationError` carrying the message
otherwise — classification is by substring inspection only. -/
theorem C3_error_classified_by_substring
    (prompt msg : String) (cs : List String)
    (hne : prompt.isEmpty = false) (hnul : hasNulByte prompt = false) :
    (response prompt false (chunkEvents cs ++ [FMEvent.err (some msg)])).result =
      some (Except.error (if strContainsSub msg "not available" then
        Error.ModelNotAvailable else Error.GenerationError msg)) ∧
    (stream_response prompt false (chunkEvents cs ++ [FMEvent.err (some msg)])).result =
      some (Except.error (if strContainsSub msg "not available" then
        Error.ModelNotAvailable else Error.GenerationError msg)) := by
  constructor
  · rw [response_of_valid _ _ _ hne hnul, runResponseEvents_chunks_err]
    rfl
  · rw [stream_response_of_valid _ _ _ hne hnul, runStreamEvents_chunks_err]
    rfl

/-- C3 witness: a message containing "not available" classifies as
`ModelNotAvailable`; any other message becomes `GenerationError` carrying it. -/
theorem C3_witness :
    (response "hi" false
      (chunkEvents ["x"] ++ [FMEvent.err (some "model not available")])).result =
      some (Except.error Error.ModelNotAvailable) ∧
    (stream_response "hi" false (chunkEvents [] ++ [FMEvent.err (some "boom")])).result =
      some (Except.error (Error.GenerationError "boom")) := by
  constructor
  · rw [(C3_error_classified_by_substring "hi" "model not available" ["x"]
      (by decide) (by decide)).1]
    decide
  · rw [(C3_error_classified_by_substring "hi" "boom" [] (by decide) (by decide)).2]
    decide

/-- C4: with an empty prompt, or a prompt containing an embedded null byte,
`response` and `stream_response` return `InvalidInput` without invoking the
foreign entry point, and the streaming sink is never invoked. -/
theorem C4_invalid_prompt_fails_fast
    (prompt : String) (poisoned : Bool) (events : List FMEvent)
    (h : prompt.isEmpty = true ∨ hasNulByte prompt = true) :
    (∃ m, (response prompt poisoned events).result =
      some (Except.error (Error.InvalidInput m))) ∧
    (response prompt poisoned events).ffiInvoked = false ∧
    (∃ m, (stream_response prompt poisoned events).result =
      some (Except.error (Error.InvalidInput m))) ∧
    (stream_response prompt poisoned events).ffiInvoked = false ∧
    (stream_response prompt poisoned events).sinkCalls = [] := by
  cases he : prompt.isEmpty with
  | true =>
    exact ⟨⟨"Prompt cannot be empty", by simp [response, he]⟩,
      by simp [response, he],
      ⟨"Prompt cannot be empty", by simp [stream_response, he]⟩,
      by simp [stream_response, he], by simp [stream_response, he]⟩
  | false =>
    have hn : hasNulByte prompt = true := by
      cases h with
      | inl h1 => rw [he] at h1; exact absurd h1 (by decide)
      | inr h2 => exact h2
    exact ⟨⟨"Prompt contains null byte", by simp [response, he, hn]⟩,
      by simp [response, he, hn],
      ⟨"Prompt contains null byte", by simp [stream_response, he, hn]⟩,
      by simp [stream_response, he, hn], by simp [stream_response, he, hn]⟩

/-- C4 witness: the empty prompt is rejected as `InvalidInput` with the
boundary never crossed and the sink never invoked. -/
theorem C4_witness :
    (∃ m, (response "" false [FMEvent.done]).result =
      some (Except.error (Error.InvalidInput m))) ∧
    (response "" false [FMEvent.done]).ffiInvoked = false ∧
    (stream_response "" false [FMEvent.done]).ffiInvoked = false ∧
    (stream_response "" false [FMEvent.done]).sinkCalls = [] := by
  have h := C4_invalid_prompt_fails_fast "" false [FMEvent.done] (Or.inl (by decide))
  exact ⟨h.1, h.2.1, h.2.2.2.1, h.2.2.2.2⟩

/-- C5: when the error callback records a message after chunk deliveries,
`response` returns the classified error and never returns the partially
accumulated text. -/
theorem C5_error_discards_partial_text
    (prompt msg : String) (cs : List String)
    (hne : prompt.isEmpty = false) (hnul : hasNulByte prompt = false) :
    (response prompt false (chunkEvents cs ++ [FMEvent.err (some msg)])).result =
      some (Except.error (classifyForeignError msg)) ∧
    ∀ s : String,
      (response prompt false (chunkEvents cs ++ [FMEvent.err (some msg)])).result ≠
        some (Except.ok s) := by
  have h : (response prompt false (chunkEvents cs ++ [FMEvent.err (some msg)])).result =
      some (Except.error (classifyForeignError msg)) := by
    rw [response_of_valid _ _ _ hne hnul, runResponseEvents_chunks_err]
    rfl
  refine ⟨h, fun s hs => ?_⟩
  rw [h] at hs
  exact Except.noConfusion (Option.some.inj hs)

/-- C5 witness: chunk "Par" then `on_error("not available")` yields
`ModelNotAvailable`, and the partial text "Par" is not returned. -/
theorem C5_witness :
    (response "hi" false
      (chunkEvents ["Par"] ++ [FMEvent.err (some "not available")])).result =
      some (Except.error Error.ModelNotAvailable) ∧
    (response "hi" false
      (chunkEvents ["Par"] ++ [FMEvent.err (some "not available")])).result ≠
      some (Except.ok "Par") := by
  have h := C5_error_discards_partial_text "hi" "not available" ["Par"]
    (by decide) (by decide)
  refine ⟨?_, h.2 "Par"⟩
  rw [h.1]
  decide

/-- C6: with an unpoisoned lock, neither bridge call returns while `finished`
is false — the wait exits only after a terminal callback set `finished` — and
for a trace of chunk deliveries followed by a terminal callback, the settled
cell holds every chunk append performed before the terminal callback. -/
theorem C6_wait_returns_only_after_finished
    (prompt : String) (events : List FMEvent) (cs : List String) (t : FMEvent)
    (hne : prompt.isEmpty = false) (hnul : hasNulByte prompt = false)
    (ht : t.isTerminal = true) :
    ((response prompt false events).result.isSome = true →
      (runResponseEvents events false).sh.st.finished = true) ∧
    ((stream_response prompt false events).result.isSome = true →
      (runStreamEvents events false).sh.st.finished = true) ∧
    (runResponseEvents (chunkEvents cs ++ [t]) false).sh.st.finished = true ∧
    (runResponseEvents (chunkEvents cs ++ [t]) false).sh.st.text = concatChunks cs := by
  refine ⟨?_, ?_, ?_, ?_⟩
  · intro hs
    cases hfin : (runResponseEvents events false).sh.st.finished
    · rw [response_of_valid _ _ _ hne hnul] at hs
      simp [settleResponse, respWait, hfin, runResponseEvents_poisoned] at hs
    · rfl
  · intro hs
    cases hfin : (runStreamEvents events false).sh.st.finished
    · rw [stream_response_of_valid _ _ _ hne hnul] at hs
      simp [settleStream, streamWait, hfin, runStreamEvents_poisoned] at hs
    · rfl
  · cases t with
    | chunk c => simp [FMEvent.isTerminal] at ht
    | done => rw [runResponseEvents_chunks_done]
    | err m => rw [runResponseEvents_chunks_err]
  · cases t with
    | chunk c => simp [FMEvent.isTerminal] at ht
    | done => rw [runResponseEvents_chunks_done]
    | err m => rw [runResponseEvents_chunks_err]

/-- C6 witness: a concrete trace of two chunks then done settles with
`finished` true, the full text visible, and a returned (non-blocking) call. -/
theorem C6_witness :
    ((response "hi" false (chunkEvents ["a", "b"] ++ [FMEvent.done])).result.isSome = true →
      (runResponseEvents (chunkEvents ["a", "b"] ++ [FMEvent.done]) false).sh.st.finished = true) ∧
    (runResponseEvents (chunkEvents ["a", "b"] ++ [FMEvent.done]) false).sh.st.text = "ab" := by
  have h := C6_wait_returns_only_after_finished "hi"
    (chunkEvents ["a", "b"] ++ [FMEvent.done]) ["a", "b"] FMEvent.done
    (by decide) (by decide) (by decide)
  refine ⟨h.1, ?_⟩
  rw [h.2.2.2]
  decide

/-- C7 counterexample: with a poisoned lock, the fulfill side (the terminal
callbacks) does not surface `PoisonError` — each terminal callback returns
with the cell exactly as it was, `finished` unset and no error recorded,
swallowing the poison instead of surfacing it. -/
theorem C7_counterexample :
    (response_done_callback false
      { st := ResponseState.default, poisoned := true }).1 =
      { st := ResponseState.default, poisoned := true } ∧
    (response_error_callback (some "boom") false
      { st := ResponseState.default, poisoned := true }).1 =
      { st := ResponseState.default, poisoned := true } ∧
    (stream_done_callback false
      { st := StreamState.default, poisoned := true }).1 =
      { st := StreamState.default, poisoned := true } ∧
    (stream_error_callback (some "boom") false
      { st := StreamState.default, poisoned := true }).1 =
      { st := StreamState.default, poisoned := true } :=
  ⟨rfl, rfl, rfl, rfl⟩

/-- C7 (amended): if the lock was left poisoned, the wait side of both
`response` and `stream_response` surfaces `PoisonError`; the fulfill side (the
terminal callbacks) instead swallows the poisoning locally — it still reclaims
the handle but leaves the cell untouched. -/
theorem C7_poison_wait_surfaces_fulfill_swallows
    (prompt : String) (events : List FMEvent)
    (hne : prompt.isEmpty = false) (hnul : hasNulByte prompt = false) :
    (response prompt true events).result = some (Except.error Error.PoisonError) ∧
    (stream_response prompt true events).result = some (Except.error Error.PoisonError) ∧
    (∀ sh : Shared ResponseState, sh.poisoned = true →
      response_done_callback false sh = (sh, 1) ∧
      ∀ m, response_error_callback m false sh = (sh, 1)) ∧
    (∀ sh : Shared StreamState, sh.poisoned = true →
      stream_done_callback false sh = (sh, 1) ∧
      ∀ m, stream_error_callback m false sh = (sh, 1)) := by
  refine ⟨?_, ?_, fun sh hp => ⟨?_, fun m => ?_⟩, fun sh hp => ⟨?_, fun m => ?_⟩⟩
  · rw [response_of_valid _ _ _ hne hnul]
    simp [settleResponse, respWait, runResponseEvents_poisoned]
  · rw [stream_response_of_valid _ _ _ hne hnul]
    simp [settleStream, streamWait, runStreamEvents_poisoned]
  · simp [response_done_callback, hp]
  · cases m <;> simp [response_error_callback, hp]
  · simp [stream_done_callback, hp]
  · cases m <;> simp [stream_error_callback, hp]

/-- C7 witness: a concrete poisoned call surfaces `PoisonError` on the wait
side, while a concrete poisoned terminal callback swallows the poison. -/
theorem C7_witness :
    (response "hi" true [FMEvent.done]).result = some (Except.error Error.PoisonError) ∧
    response_done_callback false { st := ResponseState.default, poisoned := true } =
      ({ st := ResponseState.default, poisoned := true }, 1) := by
  have h := C7_poison_wait_surfaces_fulfill_swallows "hi" [FMEvent.done]
    (by decide) (by decide)
  exact ⟨h.1, (h.2.2.1 _ rfl).1⟩

/-- C8: `LanguageModelSession::new` returns `ModelNotAvailable` when the
availability probe is false and a session when it is true; a session value
exists only if the probe returned true at creation. -/
theorem C8_new_gated_by_probe :
    LanguageModelSession.new false = Except.error Error.ModelNotAvailable ∧
    LanguageModelSession.new true = Except.ok ⟨⟩ ∧
    ∀ pr s, LanguageModelSession.new pr = Except.ok s → pr = true := by
  refine ⟨rfl, rfl, fun pr s h => ?_⟩
  cases pr
  · exact absurd h (by simp [LanguageModelSession.new])
  · rfl

/-- C8 witness: both probe outcomes, with the only-if direction applied at a
concrete successful construction. -/
theorem C8_witness :
    LanguageModelSession.new false = Except.error Error.ModelNotAvailable ∧
    true = true :=
  ⟨C8_new_gated_by_probe.1, C8_new_gated_by_probe.2.2 true ⟨⟩ rfl⟩

/-- C9: a chunk callback invoked with a null chunk pointer or a null user_data
pointer returns without mutating any state; a poisoned lock inside the
blocking chunk callback is likewise swallowed (no mutation, no propagated
error); the streaming chunk callback invokes the sink for no such call. -/
theorem C9_chunk_callback_null_and_poison_swallowed :
    (∀ udn sh, response_callback none udn sh = sh) ∧
    (∀ c sh, response_callback c true sh = sh) ∧
    (∀ s st, response_callback (some s) false { st := st, poisoned := true } =
      { st := st, poisoned := true }) ∧
    (∀ udn log, stream_chunk_callback none udn log = log) ∧
    (∀ c log, stream_chunk_callback c true log = log) := by
  refine ⟨fun udn sh => ?_, fun c sh => ?_, fun s st => ?_,
    fun udn log => ?_, fun c log => ?_⟩
  · cases udn <;> rfl
  · cases c <;> rfl
  · simp [response_callback]
  · cases udn <;> rfl
  · cases c <;> rfl

/-- C10: if the error callback fires with a null message pointer, no error is
recorded but `finished` is still set, so the call terminates successfully:
`response` returns `Ok` of the accumulated text and `stream_response` returns
`Ok ()`. -/
theorem C10_null_error_pointer_terminates_ok
    (prompt : String) (cs : List String)
    (hne : prompt.isEmpty = false) (hnul : hasNulByte prompt = false) :
    (response prompt false (chunkEvents cs ++ [FMEvent.err none])).result =
      some (Except.ok (concatChunks cs)) ∧
    (stream_response prompt false (chunkEvents cs ++ [FMEvent.err none])).result =
      some (Except.ok ()) ∧
    (runResponseEvents (chunkEvents cs ++ [FMEvent.err none]) false).sh.st.finished = true ∧
    (runResponseEvents (chunkEvents cs ++ [FMEvent.err none]) false).sh.st.error = none := by
  refine ⟨?_, ?_, ?_, ?_⟩
  · rw [response_of_valid _ _ _ hne hnul, runResponseEvents_chunks_err]
    rfl
  · rw [stream_response_of_valid _ _ _ hne hnul, runStreamEvents_chunks_err]
    rfl
  · rw [runResponseEvents_chunks_err]
  · rw [runResponseEvents_chunks_err]

/-- C10 witness: a chunk then a null-pointer error callback terminates the
blocking call with `Ok "a"` and the streaming call with `Ok ()`. -/
theorem C10_witness :
    (response "hi" false (chunkEvents ["a"] ++ [FMEvent.err none])).result =
      some (Except.ok "a") ∧
    (stream_response "hi" false (chunkEvents ["a"] ++ [FMEvent.err none])).result =
      some (Except.ok ()) := by
  have h := C10_null_error_pointer_terminates_ok "hi" ["a"] (by decide) (by decide)
  refine ⟨?_, h.2.1⟩
  rw [h.1]
  decide

end FmBindings
